import Mathlib

/-!
Verification of the double-buffered colored Game of Life widget (`src/widget.js`).

The file shallowly embeds the program:
* the WGSL simulation shader (`cellIndex`, `cellColor`, `averageColor`,
  `countNonZero`, `computeMain`) as pure functions on `Nat`, with 32-bit
  unsigned wraparound made explicit (`% 2^32`) where the shader relies on it;
* the JS seeding loop as a function of the random draw;
* the frame scheduler (`updateGrid`, the bind-group table) as a state machine
  on a pair of buffers plus a step counter;
* the WGSL vertex stage (`vertexMain`) over exact rationals.

Buffers are modelled as functions `Nat → Nat` from linear cell index to the
packed 32-bit color value.
-/

namespace GameOfLife

/-- `const GRID_SIZE = 512` in `widget.js`. -/
def GRID_SIZE : Nat := 512

/-- The number of values of a 32-bit unsigned integer, `2^32`. -/
def U32SIZE : Nat := 4294967296

/-- 32-bit unsigned addition `a + b`, as performed on `u32` in WGSL. -/
def uadd (a b : Nat) : Nat := (a + b) % U32SIZE

/-- 32-bit unsigned subtraction `a - b`, as performed on `u32` in WGSL: the
result wraps modulo `2^32` (so `0 - 1 = 2^32 - 1`). -/
def usub (a b : Nat) : Nat := (a + (U32SIZE - b % U32SIZE)) % U32SIZE

/-- The simulation shader's
`fn cellIndex(cell: vec2u) -> u32 { return (cell.y % u32(grid.y)) * u32(grid.x) + (cell.x % u32(grid.x)); }`
with the grid uniform fixed at `GRID_SIZE = 512` as in `widget.js`.
(The result is at most `511 * 512 + 511 < 2^32`, so the `u32` multiply-add
never wraps and is modelled exactly by `Nat` arithmetic.) -/
def cellIndex (x y : Nat) : Nat := (y % GRID_SIZE) * GRID_SIZE + (x % GRID_SIZE)

/-- `fn cellColor(x: u32, y: u32) -> u32 { return cellStateIn[cellIndex(vec2(x, y))]; }`
with the read buffer passed explicitly. -/
def cellColor (buf : Nat → Nat) (x y : Nat) : Nat := buf (cellIndex x y)

/-- The `array<u32, 8>` of neighbour colors gathered by `computeMain`, in the
source order; `cell.x+1`, `cell.y-1`, … are `u32` operations, hence `uadd`/`usub`. -/
def neighbourColors (buf : Nat → Nat) (x y : Nat) : List Nat :=
  [cellColor buf (uadd x 1) (uadd y 1),
   cellColor buf (uadd x 1) y,
   cellColor buf (uadd x 1) (usub y 1),
   cellColor buf x (usub y 1),
   cellColor buf (usub x 1) (usub y 1),
   cellColor buf (usub x 1) y,
   cellColor buf (usub x 1) (uadd y 1),
   cellColor buf x (uadd y 1)]

/-- The eight linear indices those neighbour reads hit, in the same order. -/
def neighbourIndices (x y : Nat) : List Nat :=
  [cellIndex (uadd x 1) (uadd y 1),
   cellIndex (uadd x 1) y,
   cellIndex (uadd x 1) (usub y 1),
   cellIndex x (usub y 1),
   cellIndex (usub x 1) (usub y 1),
   cellIndex (usub x 1) y,
   cellIndex (usub x 1) (uadd y 1),
   cellIndex x (uadd y 1)]

/-- `fn averageColor(colors: array<u32, 8>) -> u32`: per-channel masked sums,
then `(sum + bias) / 3` masked back into each channel's field.  Each masked
summand is at most its mask, so the three `u32` accumulators stay below
`8 * 0xFF0000 < 2^32` and the arithmetic is modelled exactly by `Nat`. -/
def averageColor (colors : List Nat) : Nat :=
  let r := (colors.map (fun c => c &&& 255)).sum
  let g := (colors.map (fun c => c &&& (255 <<< 8))).sum
  let b := (colors.map (fun c => c &&& (255 <<< 16))).sum
  (((r + 2) / 3) &&& 255) +
    (((g + (2 <<< 8)) / 3) &&& (255 <<< 8)) +
    (((b + (2 <<< 16)) / 3) &&& (255 <<< 16))

/-- `fn countNonZero(colors: array<u32, 8>) -> u32`: how many entries are `!= 0`. -/
def countNonZero (colors : List Nat) : Nat := colors.countP (fun c => c != 0)

/-- The per-cell body of `computeMain`: the `switch countNonZero(neighbourColors)`
writing `cellStateOut[i]` for `i = cellIndex(cell.xy)` — case 2 copies the
cell's own input value, case 3 writes the averaged neighbour color, the
default case writes 0. -/
def computeCell (buf : Nat → Nat) (x y : Nat) : Nat :=
  if countNonZero (neighbourColors buf x y) = 2 then buf (cellIndex x y)
  else if countNonZero (neighbourColors buf x y) = 3 then averageColor (neighbourColors buf x y)
  else 0

/-- One whole compute dispatch: `dispatchWorkgroups(64, 64)` with `8×8`
workgroups runs `computeMain` at every `(x, y)` with `x, y < 512`, writing
index `cellIndex x y = y * 512 + x`; indices beyond the `512²` cells keep the
previous contents of the output buffer. -/
def dispatchCompute (inBuf outBuf : Nat → Nat) : Nat → Nat :=
  fun i => if i < GRID_SIZE * GRID_SIZE then computeCell inBuf (i % GRID_SIZE) (i / GRID_SIZE)
           else outBuf i

/-- The per-channel sum the spec describes: for bit position `k`, extract each
neighbour's 8-bit field at `k` and add the eight fields up (a dead neighbour,
value 0, contributes 0 to every channel). -/
def channelSum (k : Nat) (colors : List Nat) : Nat :=
  (colors.map (fun c => c / 2 ^ k % 256)).sum

/-- The spec's description of `averageColor`, channel by channel: sum each of
the three channels independently across all 8 neighbours, add the rounding
bias `+2` (scaled to the channel's bit position), integer-divide by the fixed
divisor 3, and mask the quotient back into the channel's 8-bit field (`% 256`,
no clamping) at its bit position. -/
def averageColorSpec (colors : List Nat) : Nat :=
  (channelSum 0 colors + 2) / 3 % 256 +
    (channelSum 8 colors + 2) / 3 % 256 * 2 ^ 8 +
    (channelSum 16 colors + 2) / 3 % 256 * 2 ^ 16

/-- Masking with `255 <<< k` extracts the 8-bit field at bit position `k`,
kept in place. -/
theorem and_shift_mask (k c : Nat) : c &&& (255 <<< k) = c / 2 ^ k % 256 * 2 ^ k := by
  have hr : c / 2 ^ k % 256 * 2 ^ k = ((c >>> k) % 2 ^ 8) <<< k := by
    rw [Nat.shiftRight_eq_div_pow, Nat.shiftLeft_eq]
    norm_num
  have h255 : (255 : Nat) = 2 ^ 8 - 1 := by norm_num
  apply Nat.eq_of_testBit_eq
  intro i
  rw [hr, Nat.testBit_and, h255, Nat.testBit_shiftLeft, Nat.testBit_shiftLeft,
    Nat.testBit_mod_two_pow, Nat.testBit_two_pow_sub_one, Nat.testBit_shiftRight]
  by_cases h : k ≤ i
  · have ht : decide (i ≥ k) = true := decide_eq_true h
    have hik : k + (i - k) = i := by omega
    rw [ht, hik, Bool.true_and]
    cases c.testBit i <;> cases decide (i - k < 8) <;> simp
  · have hf : decide (i ≥ k) = false := decide_eq_false h
    rw [hf]
    simp

/-- The shader's masked per-channel accumulator is the spec's channel sum,
shifted into place. -/
theorem sum_map_and_shift (k : Nat) (l : List Nat) :
    (l.map (fun c => c &&& (255 <<< k))).sum = channelSum k l * 2 ^ k := by
  induction l with
  | nil => simp [channelSum]
  | cons a t ih =>
    simp only [channelSum, List.map_cons, List.sum_cons, and_shift_mask] at ih ⊢
    rw [ih, Nat.add_mul]

/-- Add-bias-divide-mask on a shifted channel equals the same operation on the
unshifted channel, shifted back into place. -/
theorem div3_and_shift (k G : Nat) :
    (G * 2 ^ k + 2 <<< k) / 3 &&& (255 <<< k) = (G + 2) / 3 % 256 * 2 ^ k := by
  have h2 : (2 : Nat) <<< k = 2 * 2 ^ k := Nat.shiftLeft_eq 2 k
  have hsum : G * 2 ^ k + 2 * 2 ^ k = (G + 2) * 2 ^ k := by ring
  rw [h2, hsum, and_shift_mask]
  have hdiv : (G + 2) * 2 ^ k / 3 / 2 ^ k = (G + 2) / 3 := by
    rw [Nat.div_div_eq_div_mul, Nat.mul_div_mul_right _ _ (Nat.two_pow_pos k)]
  rw [hdiv]

/-- One full channel of `averageColor`, rewritten into the spec's form. -/
theorem avg_term (k : Nat) (l : List Nat) :
    ((l.map (fun c => c &&& (255 <<< k))).sum + 2 <<< k) / 3 &&& (255 <<< k)
      = (channelSum k l + 2) / 3 % 256 * 2 ^ k := by
  rw [sum_map_and_shift, div3_and_shift]

/-- `averageColor` computes exactly the spec's per-channel rounded, masked
average. -/
theorem averageColor_eq_spec (colors : List Nat) :
    averageColor colors = averageColorSpec colors := by
  have h0 := avg_term 0 colors
  have h8 := avg_term 8 colors
  have h16 := avg_term 16 colors
  simp only [Nat.shiftLeft_zero, pow_zero, mul_one] at h0
  simp only [averageColor, averageColorSpec]
  rw [h0, h8, h16]

/-- Every `averageColor` output fits in the low three bytes. -/
theorem averageColor_le (colors : List Nat) : averageColor colors ≤ 16777215 := by
  simp only [averageColor]
  refine Nat.le_trans
    (Nat.add_le_add (Nat.add_le_add Nat.and_le_right Nat.and_le_right) Nat.and_le_right) ?_
  decide

/-- The spec's description of a neighbour read: row-major index of the
coordinate pair wrapped modulo `N` in both axes (toroidal topology).  A
decrement `x - 1` on the torus is `x + (N - 1)` before wrapping. -/
def torusIndex (a b : Nat) : Nat := b % GRID_SIZE * GRID_SIZE + a % GRID_SIZE

/-- A `u32` increment, reduced modulo the grid size, is the wrapped increment:
`512` divides `2^32`, so the outer `% 2^32` never disturbs the `% 512`. -/
theorem uadd_one_mod (x : Nat) : uadd x 1 % GRID_SIZE = (x + 1) % GRID_SIZE := by
  have hdvd : (512 : Nat) ∣ 4294967296 := ⟨8388608, by norm_num⟩
  simpa [uadd, U32SIZE, GRID_SIZE] using Nat.mod_mod_of_dvd (x + 1) hdvd

/-- A `u32` decrement (which underflows to `2^32 - 1` at zero), reduced modulo
the grid size, is the wrapped decrement `x + 511 (mod 512)`: `2^32 - 1 ≡ 511
(mod 512)`. -/
theorem usub_one_mod (x : Nat) : usub x 1 % GRID_SIZE = (x + 511) % GRID_SIZE := by
  have hdvd : (512 : Nat) ∣ 4294967296 := ⟨8388608, by norm_num⟩
  have h1 : usub x 1 % GRID_SIZE = (x + 4294967295) % 512 := by
    simpa [usub, U32SIZE, GRID_SIZE] using Nat.mod_mod_of_dvd (x + 4294967295) hdvd
  rw [h1]
  show (x + 4294967295) % 512 = (x + 511) % 512
  omega

/-- Linear indices are distinct as soon as one wrapped coordinate differs. -/
theorem cellIndex_ne (a b c d : Nat)
    (h : a % GRID_SIZE ≠ c % GRID_SIZE ∨ b % GRID_SIZE ≠ d % GRID_SIZE) :
    cellIndex a b ≠ cellIndex c d := by
  simp only [cellIndex, GRID_SIZE] at h ⊢
  omega

/-- The cell's own linear index is not among the eight linear indices its
neighbour gather reads: each neighbour differs from the cell in at least one
wrapped coordinate. -/
theorem cellIndex_not_mem_neighbourIndices (x y : Nat) :
    cellIndex x y ∉ neighbourIndices x y := by
  have hxp : x % GRID_SIZE ≠ uadd x 1 % GRID_SIZE := by
    rw [uadd_one_mod]; simp only [GRID_SIZE]; omega
  have hxm : x % GRID_SIZE ≠ usub x 1 % GRID_SIZE := by
    rw [usub_one_mod]; simp only [GRID_SIZE]; omega
  have hyp : y % GRID_SIZE ≠ uadd y 1 % GRID_SIZE := by
    rw [uadd_one_mod]; simp only [GRID_SIZE]; omega
  have hym : y % GRID_SIZE ≠ usub y 1 % GRID_SIZE := by
    rw [usub_one_mod]; simp only [GRID_SIZE]; omega
  intro hmem
  simp only [neighbourIndices, List.mem_cons, List.not_mem_nil, or_false] at hmem
  rcases hmem with h | h | h | h | h | h | h | h
  · exact cellIndex_ne x y (uadd x 1) (uadd y 1) (Or.inl hxp) h
  · exact cellIndex_ne x y (uadd x 1) y (Or.inl hxp) h
  · exact cellIndex_ne x y (uadd x 1) (usub y 1) (Or.inl hxp) h
  · exact cellIndex_ne x y x (usub y 1) (Or.inr hym) h
  · exact cellIndex_ne x y (usub x 1) (usub y 1) (Or.inl hxm) h
  · exact cellIndex_ne x y (usub x 1) y (Or.inl hxm) h
  · exact cellIndex_ne x y (usub x 1) (uadd y 1) (Or.inl hxm) h
  · exact cellIndex_ne x y x (uadd y 1) (Or.inr hyp) h

/-- `neighbourColors` is the neighbour-index list read through the buffer. -/
theorem neighbourColors_eq_map (buf : Nat → Nat) (x y : Nat) :
    neighbourColors buf x y = (neighbourIndices x y).map buf := rfl

/-!
### The frame scheduler

`widget.js` keeps two storage buffers, `cellStateStorage[0]` ("Cell state A")
and `cellStateStorage[1]` ("Cell state B"), a mutable `step` counter starting
at 0, and a table of two bind groups:

* `bindGroups[0]`: binding 1 (`cellStateIn`, also the render stages'
  `cellState`) = storage 0, binding 2 (`cellStateOut`) = storage 1;
* `bindGroups[1]`: binding 1 = storage 1, binding 2 = storage 0.

Each `updateGrid()` call dispatches the compute pass with
`bindGroups[step % 2]`, increments `step`, then records the render pass with
`bindGroups[step % 2]` (the *new* `step`), whose vertex/fragment stages read
binding 1.
-/

/-- The mutable host state: the two cell-state storage buffers and the step
counter. -/
structure SchedState where
  storeA : Nat → Nat
  storeB : Nat → Nat
  step : Nat

/-- `cellStateStorage[j]` for `j ∈ {0, 1}`. -/
def getStore (s : SchedState) (j : Nat) : Nat → Nat :=
  if j = 0 then s.storeA else s.storeB

/-- Overwrite `cellStateStorage[j]`. -/
def setStore (s : SchedState) (j : Nat) (buf : Nat → Nat) : SchedState :=
  if j = 0 then { s with storeA := buf } else { s with storeB := buf }

/-- The storage index bound at binding 1 (`cellStateIn` / render `cellState`)
of `bindGroups[k]`. -/
def bindGroupIn (k : Nat) : Nat := if k = 0 then 0 else 1

/-- The storage index bound at binding 2 (`cellStateOut`) of `bindGroups[k]`. -/
def bindGroupOut (k : Nat) : Nat := if k = 0 then 1 else 0

/-- One `updateGrid()` call: compute dispatch with `bindGroups[step % 2]`
(reading binding 1, writing binding 2), then `step++`.  The render pass that
follows in the same call is modelled by `renderSource` below. -/
def updateGrid (s : SchedState) : SchedState :=
  let bg := s.step % 2
  let afterCompute :=
    setStore s (bindGroupOut bg)
      (dispatchCompute (getStore s (bindGroupIn bg)) (getStore s (bindGroupOut bg)))
  { afterCompute with step := afterCompute.step + 1 }

/-- The buffer the render pass reads: after the increment, `updateGrid` binds
`bindGroups[step % 2]` for the render pass, and the vertex and fragment stages
read binding 1 (binding 2 is not visible to the render stages). -/
def renderSource (s : SchedState) : Nat → Nat :=
  getStore s (bindGroupIn (s.step % 2))

/-- The seeding loop body: one cell's value from its `Math.random()` draw `r`
(the JS literals `0.04`, `0.08`, `0.12` read as exact rationals). -/
def seedValue (r : ℚ) : Nat :=
  if r < 4/100 then 255
  else if r < 8/100 then 255 <<< 8
  else if r < 12/100 then 255 <<< 16
  else 0

/-- The startup state: the seeded `cellStateArray` (one value per cell) is
uploaded to `cellStateStorage[0]` ("Cell state A") only; buffer B is never
written at startup and keeps its prior (undefined) contents `b`; `step = 0`. -/
def initialState (random : Nat → ℚ) (b : Nat → Nat) : SchedState :=
  { storeA := fun i => if i < GRID_SIZE * GRID_SIZE then seedValue (random i) else 0,
    storeB := b,
    step := 0 }

/-!
### The render vertex stage

`vertexMain` is modelled over exact rationals: every number reaching it
(`±0.7` template coordinates, the grid uniform `512`, packed cell states below
`2^24`) is exactly representable in `f32`, and the claims about it are
algebraic identities of the arithmetic.
-/

/-- The `vertices` Float32Array: a square from `-0.7` to `0.7` split into two
triangles, as a list of 2D points. -/
def vertices : List (ℚ × ℚ) :=
  [(-7/10, -7/10), (7/10, -7/10), (7/10, 7/10),
   (-7/10, -7/10), (7/10, 7/10), (-7/10, 7/10)]

/-- `vertexMain`'s position arithmetic with the grid uniform at `512`:
`cellOffset = cell * 2 / grid` and `gridPos = (input.pos + 1) / grid - 1 +
cellOffset`, componentwise. -/
def gridPos (cell : ℚ × ℚ) (pos : ℚ × ℚ) : ℚ × ℚ :=
  ((pos.1 + 1) / 512 - 1 + cell.1 * 2 / 512,
   (pos.2 + 1) / 512 - 1 + cell.2 * 2 / 512)

/-- `output.pos = vec4f(gridPos, 0, 1) * state`: the whole homogeneous
position is scaled by the cell's (float-converted) packed state. -/
def vertexOutputPos (g : ℚ × ℚ) (state : ℚ) : ℚ × ℚ × ℚ × ℚ :=
  (g.1 * state, g.2 * state, 0 * state, 1 * state)

/-- The rasterizer's perspective divide: clip-space position to normalized
device coordinates, dividing each spatial component by the `w` component. -/
def ndcOf (p : ℚ × ℚ × ℚ × ℚ) : ℚ × ℚ × ℚ :=
  (p.1 / p.2.2.2, p.2.1 / p.2.2.2, p.2.2.1 / p.2.2.2)

/-!
## The claims
-/

/-- Claim C1: for every cell whose 8-neighbour non-zero count is exactly 3,
the transition writes `averageColor(neighbours)`: each of the three channels
is summed independently over all 8 neighbours (dead neighbours contributing
0), a rounding bias of +2 (scaled to the channel's bit position for green and
blue) is added, the sum is integer-divided by the fixed divisor 3, and the
quotient is masked back into the channel's 8-bit field with no clamping; the
cell's own current value is not included in the average (updating it changes
no gathered neighbour).  For pure-red, pure-green, pure-blue neighbours (and
5 dead) the exact packed result is `85 ||| 85 <<< 8 ||| 85 <<< 16`. -/
theorem birth_writes_neighbour_average (buf : Nat → Nat) (x y v : Nat)
    (h3 : countNonZero (neighbourColors buf x y) = 3) :
    computeCell buf x y = averageColor (neighbourColors buf x y) ∧
    averageColor (neighbourColors buf x y) = averageColorSpec (neighbourColors buf x y) ∧
    neighbourColors (Function.update buf (cellIndex x y) v) x y = neighbourColors buf x y ∧
    averageColor [255, 255 <<< 8, 255 <<< 16, 0, 0, 0, 0, 0] = 85 ||| 85 <<< 8 ||| 85 <<< 16 := by
  refine ⟨?_, averageColor_eq_spec _, ?_, by decide⟩
  · simp [computeCell, h3]
  · rw [neighbourColors_eq_map, neighbourColors_eq_map]
    refine List.map_congr_left ?_
    intro i hi
    have hne : i ≠ cellIndex x y := by
      intro he
      exact cellIndex_not_mem_neighbourIndices x y (he ▸ hi)
    exact Function.update_noteq hne v buf

/-- Witness for C1: a dead cell at (1,1) with pure-red, pure-green and
pure-blue live neighbours (at (2,1), (1,0) and (0,1)) and five dead ones is
born as the packed masked average `85 ||| 85 <<< 8 ||| 85 <<< 16 = 5592405`. -/
theorem birth_writes_neighbour_average_witness :
    computeCell
        (fun i => if i = 514 then 255 else if i = 1 then 255 <<< 8
                  else if i = 512 then 255 <<< 16 else 0) 1 1
      = 85 ||| 85 <<< 8 ||| 85 <<< 16 :=
  ((birth_writes_neighbour_average
      (fun i => if i = 514 then 255 else if i = 1 then 255 <<< 8
                else if i = 512 then 255 <<< 16 else 0) 1 1 0 (by decide)).1).trans
    (by decide)

/-- Claim C2: for every cell (x, y) of the 512×512 grid, including edge and
corner cells, the 8 gathered Moore-neighbourhood reads hit the row-major
indices of the coordinates (x±1, y±1), (x±1, y), (x, y±1) wrapped modulo 512
in both axes (toroidal topology); the `u32` underflow of `x - 1` at `x = 0`
lands on `2^32 - 1 ≡ 511 (mod 512)`, i.e. the opposite edge. -/
theorem neighbour_reads_wrap_toroidally (x y : Nat)
    (hx : x < GRID_SIZE) (hy : y < GRID_SIZE) :
    neighbourIndices x y =
      [torusIndex (x + 1) (y + 1),
       torusIndex (x + 1) y,
       torusIndex (x + 1) (y + (GRID_SIZE - 1)),
       torusIndex x (y + (GRID_SIZE - 1)),
       torusIndex (x + (GRID_SIZE - 1)) (y + (GRID_SIZE - 1)),
       torusIndex (x + (GRID_SIZE - 1)) y,
       torusIndex (x + (GRID_SIZE - 1)) (y + 1),
       torusIndex x (y + 1)] := by
  simp only [neighbourIndices, torusIndex, cellIndex, uadd, usub, U32SIZE, GRID_SIZE,
    List.cons.injEq, and_true]
  omega

/-- Witness for C2: the corner cell (0,0) reads exactly the wrapped indices,
among them the opposite-corner cell (511,511) at index 262143, (511,0) at
index 511 and (0,511) at index 261632. -/
theorem neighbour_reads_wrap_toroidally_witness :
    neighbourIndices 0 0 = [513, 1, 261633, 261632, 262143, 511, 1023, 512] ∧
    torusIndex 511 511 ∈ neighbourIndices 0 0 ∧
    torusIndex 511 0 ∈ neighbourIndices 0 0 ∧
    torusIndex 0 511 ∈ neighbourIndices 0 0 :=
  ⟨(neighbour_reads_wrap_toroidally 0 0 (by decide) (by decide)).trans (by decide),
   by decide, by decide, by decide⟩

/-- Claim C3: for every cell whose 8-neighbour non-zero count is exactly 2,
the transition writes the cell's own current packed value from the read
buffer, bit-for-bit unchanged, whether the cell itself is alive or dead. -/
theorem survival_copies_own_value (buf : Nat → Nat) (x y : Nat)
    (h2 : countNonZero (neighbourColors buf x y) = 2) :
    computeCell buf x y = buf (cellIndex x y) := by
  simp [computeCell, h2]

/-- Witness for C3: a live cell at (1,1) holding the arbitrary packed value
`0xABCDEF` with exactly two live neighbours (at (1,0) and (2,0)) keeps that
exact value. -/
theorem survival_copies_own_value_witness :
    computeCell
        (fun i => if i = 1 then 255 else if i = 2 then 65280
                  else if i = 513 then 11259375 else 0) 1 1
      = (fun i => if i = 1 then 255 else if i = 2 then 65280
                  else if i = 513 then 11259375 else 0) (cellIndex 1 1) ∧
    (11259375 : Nat) = 11259375 :=
  ⟨survival_copies_own_value
      (fun i => if i = 1 then 255 else if i = 2 then 65280
                else if i = 513 then 11259375 else 0) 1 1 (by decide),
   rfl⟩

/-- Claim C4: for every cell whose 8-neighbour non-zero count is neither 2
nor 3, the transition writes 0, regardless of the cell's own current value. -/
theorem wrong_count_writes_zero (buf : Nat → Nat) (x y : Nat)
    (h2 : countNonZero (neighbourColors buf x y) ≠ 2)
    (h3 : countNonZero (neighbourColors buf x y) ≠ 3) :
    computeCell buf x y = 0 := by
  simp [computeCell, h2, h3]

/-- Witness for C4: in an all-live buffer every cell has neighbour count 8
and dies. -/
theorem wrong_count_writes_zero_witness :
    computeCell (fun _ => 255) 3 3 = 0 :=
  wrong_count_writes_zero (fun _ => 255) 3 3 (by decide) (by decide)

/-- Claim C5: if every cell of the read buffer has its top byte zero (each
8-bit channel in [0,255], as seeding establishes), then every cell the
transition step writes also has its top byte zero: survival copies such a
value, death writes 0, and the birth average's three masked fields sum to at
most `0xFFFFFF` — no channel ever overflows into the next. -/
theorem transition_preserves_packed_range (inBuf outBuf : Nat → Nat)
    (hin : ∀ i, inBuf i < 2 ^ 24) (i : Nat) (hi : i < GRID_SIZE * GRID_SIZE) :
    dispatchCompute inBuf outBuf i < 2 ^ 24 := by
  have hcell : ∀ a b : Nat, computeCell inBuf a b < 2 ^ 24 := by
    intro a b
    unfold computeCell
    split
    · exact hin _
    split
    · exact Nat.lt_of_le_of_lt (averageColor_le _) (by norm_num)
    · exact Nat.two_pow_pos 24
  simp only [dispatchCompute]
  rw [if_pos hi]
  exact hcell _ _

/-- Witness for C5: the all-dead buffer is in range and so is the value the
step writes at cell 5. -/
theorem transition_preserves_packed_range_witness :
    dispatchCompute (fun _ => 0) (fun _ => 0) 5 < 2 ^ 24 :=
  transition_preserves_packed_range (fun _ => 0) (fun _ => 0)
    (fun _ => Nat.two_pow_pos 24) 5 (by decide)

/-- Claim C6: at every tick (step counter `k`), the compute dispatch reads
storage buffer `k % 2` and writes storage buffer `(k + 1) % 2`, the step
counter is incremented exactly once between the compute and render dispatches,
and the render dispatch then reads buffer `(k + 1) % 2` — the rendered buffer
is exactly the one this tick's compute pass just wrote. -/
theorem render_reads_buffer_just_written (s : SchedState) :
    bindGroupIn (s.step % 2) = s.step % 2 ∧
    bindGroupOut (s.step % 2) = (s.step + 1) % 2 ∧
    (updateGrid s).step = s.step + 1 ∧
    renderSource (updateGrid s)
      = dispatchCompute (getStore s (s.step % 2)) (getStore s ((s.step + 1) % 2)) := by
  rcases Nat.mod_two_eq_zero_or_one s.step with h | h
  · have h1 : (s.step + 1) % 2 = 1 := by omega
    simp [bindGroupIn, bindGroupOut, updateGrid, renderSource, getStore, setStore, h, h1]
  · have h1 : (s.step + 1) % 2 = 0 := by omega
    simp [bindGroupIn, bindGroupOut, updateGrid, renderSource, getStore, setStore, h, h1]

/-- Claim C7: the transition step reads only `cellStateIn` (binding 1) and
writes only `cellStateOut` (binding 2), which are distinct buffers in both
bind groups, so the read buffer's contents are unchanged after the step. -/
theorem transition_reads_are_immutable (s : SchedState) :
    bindGroupIn (s.step % 2) ≠ bindGroupOut (s.step % 2) ∧
    getStore (updateGrid s) (bindGroupIn (s.step % 2))
      = getStore s (bindGroupIn (s.step % 2)) := by
  rcases Nat.mod_two_eq_zero_or_one s.step with h | h <;>
    simp [bindGroupIn, bindGroupOut, updateGrid, getStore, setStore, h]

/-- Claim C8: seeding assigns each of the 512² cells, from its random draw
`r`, pure red (packed 255, i.e. R=255, G=0, B=0) if `r < 0.04`, else pure
green (packed `255 <<< 8`) if `r < 0.08`, else pure blue (packed `255 <<< 16`)
if `r < 0.12`, else 0 (dead); it is applied once to buffer A only (buffer B
keeps its prior contents), with the step counter at 0. -/
theorem seeding_thresholds (random : Nat → ℚ) (b : Nat → Nat) (i : Nat)
    (hi : i < GRID_SIZE * GRID_SIZE) :
    (initialState random b).storeA i =
      (if random i < 4/100 then 255
       else if random i < 8/100 then 255 <<< 8
       else if random i < 12/100 then 255 <<< 16
       else 0) ∧
    (255 : Nat) % 256 = 255 ∧ (255 : Nat) / 2 ^ 8 % 256 = 0 ∧
      (255 : Nat) / 2 ^ 16 % 256 = 0 ∧
    (255 <<< 8) % 256 = 0 ∧ (255 <<< 8) / 2 ^ 8 % 256 = 255 ∧
      (255 <<< 8) / 2 ^ 16 % 256 = 0 ∧
    (255 <<< 16) % 256 = 0 ∧ (255 <<< 16) / 2 ^ 8 % 256 = 0 ∧
      (255 <<< 16) / 2 ^ 16 % 256 = 255 ∧
    (initialState random b).storeB = b ∧
    (initialState random b).step = 0 := by
  refine ⟨?_, by decide, by decide, by decide, by decide, by decide, by decide,
    by decide, by decide, by decide, rfl, rfl⟩
  simp [initialState, seedValue, hi]

/-- A draw of 0.02 is below the red threshold 0.04. -/
theorem seed_draw_is_red : (1/50 : ℚ) < 4/100 := by norm_num

/-- Witness for C8: with every draw at 0.02 the first cell seeds pure red,
and buffer B keeps its arbitrary prior contents. -/
theorem seeding_thresholds_witness :
    (initialState (fun _ => 1/50) (fun _ => 7)).storeA 0 = 255 ∧
    (initialState (fun _ => 1/50) (fun _ => 7)).storeB 0 = 7 :=
  ⟨((seeding_thresholds (fun _ => 1/50) (fun _ => 7) 0 (by decide)).1).trans
      (if_pos seed_draw_is_red),
   rfl⟩

/-- Counterexample to claim C9: the claim says cell (0,0)'s transformed quad
covers exactly `[2·0/512 - 1, 2·1/512 - 1]²`, whose lower-left corner has
coordinate `2·0/512 - 1 = -1`; but the template vertices are `±0.7`, not a
unit square, and every transformed vertex of cell (0,0) has both coordinates
at least `3/5120 - 1 > -1`, so the quad does not reach the claimed region's
boundary and cannot cover it. -/
theorem quad_tiling_counterexample :
    vertices.map (gridPos (0, 0)) =
      [(3/5120 - 1, 3/5120 - 1), (17/5120 - 1, 3/5120 - 1),
       (17/5120 - 1, 17/5120 - 1), (3/5120 - 1, 3/5120 - 1),
       (17/5120 - 1, 17/5120 - 1), (3/5120 - 1, 17/5120 - 1)] ∧
    (2 * 0 / 512 - 1 : ℚ) ≠ 3/5120 - 1 ∧
    (2 * 0 / 512 - 1 : ℚ) < 3/5120 - 1 ∧
    (2 * 0 / 512 - 1 : ℚ) < 17/5120 - 1 := by
  refine ⟨?_, by norm_num, by norm_num, by norm_num⟩
  simp only [vertices, List.map_cons, List.map_nil, gridPos, List.cons.injEq,
    and_true, Prod.mk.injEq]
  norm_num

/-- Claim C9 (amended): the VertexTemplate is a square of side 1.4 (corners
`±0.7`) split into two triangles, and the transform places cell (x, y)'s quad
at `[(2x + 0.3)/512 - 1, (2x + 1.7)/512 - 1] × [(2y + 0.3)/512 - 1,
(2y + 1.7)/512 - 1]`: centred in the cell's `2/512`-wide grid slot but
covering only 70% of its extent per axis, so the grid of slots tiles
`[-1,1]²` while the drawn quads leave a margin of `0.3/512` on each side. -/
theorem quad_geometry (cx cy : ℚ) :
    vertices.map (gridPos (cx, cy)) =
      [((2 * cx + 3/10) / 512 - 1, (2 * cy + 3/10) / 512 - 1),
       ((2 * cx + 17/10) / 512 - 1, (2 * cy + 3/10) / 512 - 1),
       ((2 * cx + 17/10) / 512 - 1, (2 * cy + 17/10) / 512 - 1),
       ((2 * cx + 3/10) / 512 - 1, (2 * cy + 3/10) / 512 - 1),
       ((2 * cx + 17/10) / 512 - 1, (2 * cy + 17/10) / 512 - 1),
       ((2 * cx + 3/10) / 512 - 1, (2 * cy + 17/10) / 512 - 1)] := by
  simp only [vertices, List.map_cons, List.map_nil, gridPos, List.cons.injEq,
    and_true, Prod.mk.injEq]
  refine ⟨⟨?_, ?_⟩, ⟨?_, ?_⟩, ⟨?_, ?_⟩, ⟨?_, ?_⟩, ⟨?_, ?_⟩, ⟨?_, ?_⟩⟩ <;> ring

/-- Claim C10: the vertex stage scales the whole homogeneous position
`(gridPos, 0, 1)` by the packed state `s`; for every nonzero `s` the
perspective divide by the `w` component gives exactly the same normalized
device coordinates as the unscaled position — every live cell renders at the
same place and size regardless of its color magnitude — while `s = 0`
collapses the quad to the degenerate position `(0, 0, 0, 0)`. -/
theorem state_scaling_cancels_in_ndc (g : ℚ × ℚ) (s : ℚ) (hs : s ≠ 0) :
    ndcOf (vertexOutputPos g s) = (g.1, g.2, 0) ∧
    ndcOf (vertexOutputPos g 1) = (g.1, g.2, 0) ∧
    vertexOutputPos g 0 = (0, 0, 0, 0) := by
  refine ⟨?_, ?_, ?_⟩
  · simp [ndcOf, vertexOutputPos, Prod.ext_iff, mul_div_cancel_right₀ _ hs]
  · simp [ndcOf, vertexOutputPos]
  · simp [vertexOutputPos]

/-- Witness for C10: a live cell with the packed state 5592405 lands at the
same normalized device coordinates as an unscaled vertex at (1/2, 1/3). -/
theorem state_scaling_cancels_in_ndc_witness :
    ndcOf (vertexOutputPos (1/2, 1/3) 5592405) = (1/2, 1/3, 0) :=
  (state_scaling_cancels_in_ndc (1/2, 1/3) 5592405 (by decide)).1

end GameOfLife
